import Mathlib

/-!
Shallow embedding of the cudawesome kernels and their host harnesses.

Source files modelled:
- src/add_vector.cu (vector_sum_float_opt.cu): kernel vectorAdd, host gpuVectorAdd, main.
- src/src/basic/matrix/matrix_mul_nxm_int.cu: kernel matrixMul, host gpuMatrixMul, main.
- src/src/basic/addvec_threads.cu: kernel add (no bounds check), main.
- src/unnamed/part_000 (matrix_add_nxm_float.cu): kernel matrixAdd, host gpuMatrixAdd, main.
- src/unnamed/part_001 (matrix_add_nxm_float.cu variant): kernel add, main with inline
  device management.

Modelling conventions.  Host-side size and geometry arithmetic is unsigned 32-bit in the
source; it is modelled as Nat with an explicit reduction modulo W32 = 2^32 wherever the C
expression can wrap.  Device memory is modelled as a function Nat -> value; one kernel
thread is modelled by the single optional write it performs, returned as
Option (position, value).  Signed int element values are modelled as Int, REAL (float or
double) element values as Rat.  The host control flow of each program is modelled as the
list of device-buffer events it emits, with an oracle selecting which fallible device
call (if any) fails first.
-/

namespace Cudawesome

/-- 2^32, the modulus of unsigned 32-bit arithmetic. -/
def W32 : Nat := 4294967296

/-! ## Kernels

Each kernel is modelled by the write a single thread performs, as a function of the
memory contents, the problem dimensions, and the thread coordinate computed at dispatch
(`blockIdx * blockDim + threadIdx`, already reduced mod 2^32 by the caller). -/

/-- Kernel `vectorAdd` of src/add_vector.cu lines 62-68: guard `pos >= dim` returns with
no write, otherwise writes `a[pos] + b[pos]` to position `pos`. -/
def vectorAddWrite {α : Type} [Add α] (a b : Nat → α) (dim pos : Nat) : Option (Nat × α) :=
  if pos ≥ dim then none else some (pos, a pos + b pos)

/-- Kernel `matrixAdd` of src/unnamed/part_000 lines 33-41: guard
`iX >= dimX or iY >= dimY` returns with no write, otherwise writes at
`pos = iY * dimX + iX` (32-bit unsigned index arithmetic). -/
def matrixAddWrite {α : Type} [Add α] (a b : Nat → α) (dimX dimY iX iY : Nat) :
    Option (Nat × α) :=
  if iX ≥ dimX ∨ iY ≥ dimY then none
  else
    let pos := (iY * dimX + iX) % W32
    some (pos, a pos + b pos)

/-- Kernel `add` of src/unnamed/part_001 lines 31-39: writes at `pos = iY * dimX + iX`
only when `iX < dimX and iY < dimY` (32-bit unsigned index arithmetic). -/
def addNxmWrite {α : Type} [Add α] (a b : Nat → α) (dimX dimY iX iY : Nat) :
    Option (Nat × α) :=
  if iX < dimX ∧ iY < dimY then
    let pos := (iY * dimX + iX) % W32
    some (pos, a pos + b pos)
  else none

/-- Kernel `matrixMul` of src/src/basic/matrix/matrix_mul_nxm_int.cu lines 28-42: guard
`iX >= dimX2 or iY >= dimY1` returns with no write; otherwise accumulates
`val += a[iY*dimX1 + k] * b[k*dimX2 + iX]` for k = 0 .. dimX1-1 starting from 0 and
writes `val` to `pos = iY*dimX2 + iX` (32-bit unsigned index arithmetic). -/
def matrixMulWrite (a b : Nat → Int) (dimX1 dimY1 dimX2 : Nat) (iX iY : Nat) :
    Option (Nat × Int) :=
  if iX ≥ dimX2 ∨ iY ≥ dimY1 then none
  else
    some ((iY * dimX2 + iX) % W32,
      (List.range dimX1).foldl
        (fun val k => val + a ((iY * dimX1 + k) % W32) * b ((k * dimX2 + iX) % W32)) 0)

/-- Kernel `add` of src/src/basic/addvec_threads.cu lines 15-17: writes
`a[threadIdx.x] + b[threadIdx.x]` to `c[threadIdx.x]` with no bounds check at all. -/
def addThreadsWrite (a b : Nat → Int) (tid : Nat) : Option (Nat × Int) :=
  some (tid, a tid + b tid)

/-- `N` of src/src/basic/addvec_threads.cu line 13: the fixed problem extent. -/
def addvecN : Nat := 512

/-! ## Arithmetic helpers -/

/-- Row-major index bound: an in-range 2D coordinate gives a linear index below the
total element count. -/
lemma index_lt {i j dI dJ : Nat} (hi : i < dI) (hj : j < dJ) : i * dJ + j < dI * dJ := by
  calc i * dJ + j < i * dJ + dJ := by omega
    _ = (i + 1) * dJ := by ring
    _ ≤ dI * dJ := Nat.mul_le_mul_right dJ hi

/-- A left fold of additions over `List.range n` is the corresponding finite sum, for
any function agreeing on the range. -/
lemma foldl_range_sum (f g : Nat → Int) :
    ∀ n : Nat, (∀ k, k < n → f k = g k) →
      (List.range n).foldl (fun v k => v + f k) 0 = ∑ k ∈ Finset.range n, g k := by
  intro n
  induction n with
  | zero => intro _; simp
  | succ m ih =>
      intro h
      rw [List.range_succ, List.foldl_append, Finset.sum_range_succ,
        ih (fun k hk => h k (Nat.lt_succ_of_lt hk))]
      simp only [List.foldl_cons, List.foldl_nil]
      rw [h m (Nat.lt_succ_self m)]

/-! ## Claim C1 -/

/-- Claim C1 (confirmed): for the matrix-multiply kernel with A of shape dimX1 x dimY1
and B of shape dimX2 x dimY2, every thread whose coordinate (iX, iY) satisfies
iX < dimX2 and iY < dimY1 writes exactly the scalar sum over k from 0 to dimX1-1 of
A[iY*dimX1+k] * B[k*dimX2+iX] to result position iY*dimX2+iX, and every other thread
writes nothing.  The side conditions require each matrix and the result to fit within
the 2^32 index space, so the kernel's 32-bit unsigned index arithmetic does not wrap. -/
theorem c1_matrixMul_write (a b : Nat → Int) (dimX1 dimY1 dimX2 : Nat) (iX iY : Nat)
    (hX : iX < dimX2) (hY : iY < dimY1)
    (hA : dimY1 * dimX1 ≤ W32) (hB : dimX1 * dimX2 ≤ W32) (hC : dimY1 * dimX2 ≤ W32) :
    matrixMulWrite a b dimX1 dimY1 dimX2 iX iY
      = some (iY * dimX2 + iX,
          ∑ k ∈ Finset.range dimX1, a (iY * dimX1 + k) * b (k * dimX2 + iX))
    ∧ ∀ jX jY : Nat, dimX2 ≤ jX ∨ dimY1 ≤ jY →
        matrixMulWrite a b dimX1 dimY1 dimX2 jX jY = none := by
  constructor
  · simp only [matrixMulWrite]
    rw [if_neg (by omega)]
    have hpos : (iY * dimX2 + iX) % W32 = iY * dimX2 + iX :=
      Nat.mod_eq_of_lt (lt_of_lt_of_le (index_lt hY hX) hC)
    have hval : (List.range dimX1).foldl
        (fun v k => v + a ((iY * dimX1 + k) % W32) * b ((k * dimX2 + iX) % W32)) 0
        = ∑ k ∈ Finset.range dimX1, a (iY * dimX1 + k) * b (k * dimX2 + iX) := by
      apply foldl_range_sum
      intro k hk
      have ha : (iY * dimX1 + k) % W32 = iY * dimX1 + k :=
        Nat.mod_eq_of_lt (lt_of_lt_of_le (index_lt hY hk) hA)
      have hb : (k * dimX2 + iX) % W32 = k * dimX2 + iX :=
        Nat.mod_eq_of_lt (lt_of_lt_of_le (index_lt hk hX) hB)
      rw [ha, hb]
    rw [hpos, hval]
  · intro jX jY h
    simp only [matrixMulWrite]
    rw [if_pos (by omega)]

/-- Witness for C1 at A = B = the 2x2 matrix of linear indices. -/
theorem c1_matrixMul_write_witness :
    matrixMulWrite (fun i => (i : Int)) (fun i => (i : Int)) 2 2 2 0 1
      = some (1 * 2 + 0,
          ∑ k ∈ Finset.range 2, ((fun i => (i : Int)) (1 * 2 + k))
            * ((fun i => (i : Int)) (k * 2 + 0)))
    ∧ ∀ jX jY : Nat, 2 ≤ jX ∨ 2 ≤ jY →
        matrixMulWrite (fun i => (i : Int)) (fun i => (i : Int)) 2 2 2 jX jY = none :=
  c1_matrixMul_write (fun i => (i : Int)) (fun i => (i : Int)) 2 2 2 0 1
    (by decide) (by decide) (by decide) (by decide) (by decide)

/-! ## Claim C2 -/

/-- Claim C2 counterexample: the `add` kernel of src/src/basic/addvec_threads.cu has no
boundary check; with geometry 1 group of 513 units (so groupCount * groupSize = 513
overshoots the extent addvecN = 512), the unit with coordinate 0 * 513 + 512, which is
outside the extent, still performs a write. -/
theorem c2_counterexample :
    1 * 513 > addvecN ∧ addvecN ≤ 0 * 513 + 512 ∧
    addThreadsWrite (fun _ => (1 : Int)) (fun _ => 2) (0 * 513 + 512) = some (512, 3) := by
  decide

/-- Claim C2 (corrected): the bounds-checked kernels (vectorAdd of add_vector.cu,
matrixAdd of part_000, add of part_001, matrixMul of matrix_mul_nxm_int.cu) perform no
write whenever the thread coordinate falls outside the problem extent, for every
geometry; the `add` kernel of addvec_threads.cu has no such check and writes at its
thread coordinate unconditionally, but its program's only dispatch runs exactly
addvecN units, each of which writes within the extent. -/
theorem c2_bounds_amended :
    (∀ (a b : Nat → ℚ) (dim pos : Nat), dim ≤ pos → vectorAddWrite a b dim pos = none)
    ∧ (∀ (a b : Nat → ℚ) (dimX dimY iX iY : Nat), dimX ≤ iX ∨ dimY ≤ iY →
        matrixAddWrite a b dimX dimY iX iY = none)
    ∧ (∀ (a b : Nat → ℚ) (dimX dimY iX iY : Nat), dimX ≤ iX ∨ dimY ≤ iY →
        addNxmWrite a b dimX dimY iX iY = none)
    ∧ (∀ (a b : Nat → Int) (dimX1 dimY1 dimX2 iX iY : Nat), dimX2 ≤ iX ∨ dimY1 ≤ iY →
        matrixMulWrite a b dimX1 dimY1 dimX2 iX iY = none)
    ∧ (∀ (a b : Nat → Int) (tid : Nat), tid < addvecN →
        ∃ v : Int, addThreadsWrite a b tid = some (tid, v)) := by
  refine ⟨?_, ?_, ?_, ?_, ?_⟩
  · intro a b dim pos h
    simp only [vectorAddWrite]
    rw [if_pos (by omega)]
  · intro a b dimX dimY iX iY h
    simp only [matrixAddWrite]
    rw [if_pos (by omega)]
  · intro a b dimX dimY iX iY h
    simp only [addNxmWrite]
    rw [if_neg (by omega)]
  · intro a b dimX1 dimY1 dimX2 iX iY h
    simp only [matrixMulWrite]
    rw [if_pos (by omega)]
  · intro a b tid _
    exact ⟨a tid + b tid, rfl⟩

/-- Witness for C2 (amended) at concrete out-of-extent coordinates. -/
theorem c2_bounds_amended_witness :
    vectorAddWrite (fun _ => (0 : ℚ)) (fun _ => 0) 5 7 = none
    ∧ matrixAddWrite (fun _ => (0 : ℚ)) (fun _ => 0) 3 3 3 1 = none
    ∧ addNxmWrite (fun _ => (0 : ℚ)) (fun _ => 0) 3 3 1 3 = none
    ∧ matrixMulWrite (fun _ => (0 : Int)) (fun _ => 0) 2 2 2 2 0 = none
    ∧ ∃ v : Int, addThreadsWrite (fun _ => (0 : Int)) (fun _ => 0) 7 = some (7, v) :=
  ⟨c2_bounds_amended.1 _ _ 5 7 (by decide),
   c2_bounds_amended.2.1 _ _ 3 3 3 1 (Or.inl (by decide)),
   c2_bounds_amended.2.2.1 _ _ 3 3 1 3 (Or.inr (by decide)),
   c2_bounds_amended.2.2.2.1 _ _ 2 2 2 2 0 (Or.inl (by decide)),
   c2_bounds_amended.2.2.2.2 _ _ 7 (by decide)⟩

/-! ## Dimension planner -/

/-- Grid planner of src/add_vector.cu line 123:
`gridSize = (vectorDim + blockSize - 1) / blockSize`, computed in unsigned 32-bit
arithmetic, so the numerator wraps modulo 2^32. -/
def gridSize1D (E G : Nat) : Nat := ((E + G - 1) % W32) / G

/-- Per-axis grid planner of src/src/basic/matrix/matrix_mul_nxm_int.cu lines 119-128
and of src/unnamed/part_000 lines 101-109 and src/unnamed/part_001 lines 74-82:
`gridSize = E / G`, incremented by one when `gridSize * blockSize < E` (the product is
unsigned 32-bit). -/
def gridSizeAxis (E G : Nat) : Nat :=
  let g := E / G
  if (g * G) % W32 < E then g + 1 else g

/-- The divide-then-increment planner is exact ceiling division for every extent and
group size representable in 32 bits. -/
lemma gridSizeAxis_ceil (E G : Nat) (hE : 1 ≤ E) (hG : 1 ≤ G) (hW : E < W32) :
    E ≤ gridSizeAxis E G * G ∧ (gridSizeAxis E G - 1) * G < E := by
  simp only [gridSizeAxis]
  have hmod : (E / G * G) % W32 = E / G * G :=
    Nat.mod_eq_of_lt (lt_of_le_of_lt (Nat.div_mul_le_self E G) hW)
  rw [hmod]
  have h1 : E / G * G + E % G = E := Nat.div_add_mod' E G
  have h2 : E % G < G := Nat.mod_lt E (by omega)
  have h3 : (E / G + 1) * G = E / G * G + G := by ring
  split
  case isTrue h =>
    constructor
    · omega
    · have h4 : (E / G + 1 - 1) * G = E / G * G := by simp
      omega
  case isFalse h =>
    constructor
    · omega
    · rcases Nat.eq_zero_or_pos (E / G) with h0 | hp
      · rw [h0]
        simp only [Nat.zero_sub, Nat.zero_mul]
        omega
      · have h4 : (E / G - 1) * G + G = E / G * G := by
          have he : E / G - 1 + 1 = E / G := by omega
          calc (E / G - 1) * G + G = (E / G - 1 + 1) * G := by ring
            _ = E / G * G := by rw [he]
        have h5 : E / G * G ≤ E := Nat.div_mul_le_self E G
        omega

/-- The one-divide planner of add_vector.cu is exact ceiling division whenever the
numerator does not wrap modulo 2^32. -/
lemma gridSize1D_ceil (E G : Nat) (hE : 1 ≤ E) (hG : 1 ≤ G) (hW : E + G - 1 < W32) :
    E ≤ gridSize1D E G * G ∧ (gridSize1D E G - 1) * G < E := by
  simp only [gridSize1D]
  rw [Nat.mod_eq_of_lt hW]
  set m := E + G - 1 with hm
  have h1 : m / G * G + m % G = m := Nat.div_add_mod' m G
  have h2 : m % G < G := Nat.mod_lt m (by omega)
  constructor
  · omega
  · rcases Nat.eq_zero_or_pos (m / G) with h0 | hp
    · rw [h0]
      simp only [Nat.zero_sub, Nat.zero_mul]
      omega
    · have h4 : (m / G - 1) * G + G = m / G * G := by
        have he : m / G - 1 + 1 = m / G := by omega
        calc (m / G - 1) * G + G = (m / G - 1 + 1) * G := by ring
          _ = m / G * G := by rw [he]
      have h5 : m / G * G ≤ m := Nat.div_mul_le_self m G
      omega

/-! ## Claim C3 -/

/-- Claim C3 counterexample: the add_vector.cu planner computes
`(vectorDim + blockSize - 1) / blockSize` in unsigned 32-bit arithmetic; at
E = 4294967295 (a representable extent that passes the `vectorDim < 1` check) and
G = 2, the numerator wraps to 0 and the planner returns groupCount 0, violating
`groupCount * G >= E`. -/
theorem c3_counterexample :
    1 ≤ 4294967295 ∧ 1 ≤ 2 ∧ gridSize1D 4294967295 2 = 0 ∧
    ¬ 4294967295 ≤ gridSize1D 4294967295 2 * 2 := by
  decide

/-- Claim C3 (corrected): for every extent E >= 1 and group size G >= 1 such that
E + G - 1 does not wrap modulo 2^32, both planner forms return the minimal groupCount
with groupCount * G >= E: the one-divide form of add_vector.cu and the per-axis
divide-then-increment form of the matrix programs (the latter needs only E < 2^32). -/
theorem c3_amended (E G : Nat) (hE : 1 ≤ E) (hG : 1 ≤ G) (hW : E + G - 1 < W32) :
    (E ≤ gridSize1D E G * G ∧ (gridSize1D E G - 1) * G < E)
    ∧ (E ≤ gridSizeAxis E G * G ∧ (gridSizeAxis E G - 1) * G < E) :=
  ⟨gridSize1D_ceil E G hE hG hW, gridSizeAxis_ceil E G hE hG (by omega)⟩

/-- Witness for C3 (amended) at E = 10, G = 4: both planners return 3. -/
theorem c3_amended_witness :
    ((10 : Nat) ≤ gridSize1D 10 4 * 4 ∧ (gridSize1D 10 4 - 1) * 4 < 10)
    ∧ ((10 : Nat) ≤ gridSizeAxis 10 4 * 4 ∧ (gridSizeAxis 10 4 - 1) * 4 < 10) :=
  c3_amended 10 4 (by decide) (by decide) (by decide)

/-! ## Claim C9 -/

/-- X-axis grid size of matrix_mul_nxm_int.cu lines 119-123: computed from
`max(matrixDimX1, matrixDimX2)`. -/
def mulGridSizeX (dimX1 dimX2 blockSize : Nat) : Nat :=
  gridSizeAxis (max dimX1 dimX2) blockSize

/-- Y-axis grid size of matrix_mul_nxm_int.cu lines 124-128: computed from
`max(matrixDimY1, matrixDimY2)`. -/
def mulGridSizeY (dimY1 dimY2 blockSize : Nat) : Nat :=
  gridSizeAxis (max dimY1 dimY2) blockSize

/-- Every coordinate below `gc * G` is realised by exactly one (group, unit-in-group)
pair of the geometry with gc groups of G units. -/
lemma axis_unique (G gc i : Nat) (hG : 0 < G) (hi : i < gc * G) :
    ∃! p : Nat × Nat, p.1 < gc ∧ p.2 < G ∧ p.1 * G + p.2 = i := by
  refine ⟨(i / G, i % G), ⟨?_, ?_, ?_⟩, ?_⟩
  · exact (Nat.div_lt_iff_lt_mul hG).mpr hi
  · exact Nat.mod_lt _ hG
  · exact Nat.div_add_mod' i G
  · rintro ⟨q, r⟩ ⟨hq, hr, he⟩
    dsimp only at hq hr he
    have hcomm : q * G = G * q := Nat.mul_comm q G
    have he' : r + G * q = i := by omega
    obtain ⟨hd, hm⟩ := (Nat.div_mod_unique hG).mpr ⟨he', hr⟩
    simp only [Prod.mk.injEq]
    exact ⟨hd.symm, hm.symm⟩

/-- A product of two unique existentials is a unique existential on the product type. -/
lemma existsUnique_prod {α β : Type} {P : α → Prop} {Q : β → Prop}
    (hP : ∃! a, P a) (hQ : ∃! b, Q b) : ∃! x : α × β, P x.1 ∧ Q x.2 := by
  obtain ⟨a, ha, ha'⟩ := hP
  obtain ⟨b, hb, hb'⟩ := hQ
  refine ⟨(a, b), ⟨ha, hb⟩, ?_⟩
  rintro ⟨a', b'⟩ ⟨ha'', hb''⟩
  simp only [Prod.mk.injEq]
  exact ⟨ha' a' ha'', hb' b' hb''⟩

/-- Claim C9 (confirmed): although the matrix-multiply grid is sized from
max(dimX1, dimX2) and max(dimY1, dimY2) rather than from the output extents, under the
precondition dimY2 = dimX1 the geometry covers the whole output:
gridSizeX * blockSize >= dimX2 and gridSizeY * blockSize >= dimY1, and every output
element (iX < dimX2, iY < dimY1) is owned by exactly one
((blockIdx.x, threadIdx.x), (blockIdx.y, threadIdx.y)) unit of the grid. -/
theorem c9_mulGrid_covers (dimX1 dimY1 dimX2 dimY2 bs : Nat)
    (_h1 : 1 ≤ dimX1) (h2 : 1 ≤ dimY1) (h3 : 1 ≤ dimX2) (_h4 : dimY2 = dimX1)
    (hbs : 1 ≤ bs) (hx : max dimX1 dimX2 < W32) (hy : max dimY1 dimY2 < W32) :
    dimX2 ≤ mulGridSizeX dimX1 dimX2 bs * bs
    ∧ dimY1 ≤ mulGridSizeY dimY1 dimY2 bs * bs
    ∧ ∀ iX iY : Nat, iX < dimX2 → iY < dimY1 →
        ∃! u : (Nat × Nat) × Nat × Nat,
          (u.1.1 < mulGridSizeX dimX1 dimX2 bs ∧ u.1.2 < bs ∧ u.1.1 * bs + u.1.2 = iX)
          ∧ (u.2.1 < mulGridSizeY dimY1 dimY2 bs ∧ u.2.2 < bs ∧ u.2.1 * bs + u.2.2 = iY) := by
  have hmx : 1 ≤ max dimX1 dimX2 := le_trans h3 (le_max_right _ _)
  have hmy : 1 ≤ max dimY1 dimY2 := le_trans h2 (le_max_left _ _)
  have hcx : max dimX1 dimX2 ≤ mulGridSizeX dimX1 dimX2 bs * bs :=
    (gridSizeAxis_ceil (max dimX1 dimX2) bs hmx hbs hx).1
  have hcy : max dimY1 dimY2 ≤ mulGridSizeY dimY1 dimY2 bs * bs :=
    (gridSizeAxis_ceil (max dimY1 dimY2) bs hmy hbs hy).1
  have hX2 : dimX2 ≤ mulGridSizeX dimX1 dimX2 bs * bs :=
    le_trans (le_max_right _ _) hcx
  have hY1 : dimY1 ≤ mulGridSizeY dimY1 dimY2 bs * bs :=
    le_trans (le_max_left _ _) hcy
  refine ⟨hX2, hY1, ?_⟩
  intro iX iY hiX hiY
  exact existsUnique_prod
    (axis_unique bs _ iX (by omega) (lt_of_lt_of_le hiX hX2))
    (axis_unique bs _ iY (by omega) (lt_of_lt_of_le hiY hY1))

/-- Witness for C9 at A of shape 2 x 3, B of shape 4 x 2, block size 2. -/
theorem c9_mulGrid_covers_witness :
    (4 : Nat) ≤ mulGridSizeX 2 4 2 * 2
    ∧ (3 : Nat) ≤ mulGridSizeY 3 2 2 * 2
    ∧ ∀ iX iY : Nat, iX < 4 → iY < 3 →
        ∃! u : (Nat × Nat) × Nat × Nat,
          (u.1.1 < mulGridSizeX 2 4 2 ∧ u.1.2 < 2 ∧ u.1.1 * 2 + u.1.2 = iX)
          ∧ (u.2.1 < mulGridSizeY 3 2 2 ∧ u.2.2 < 2 ∧ u.2.1 * 2 + u.2.2 = iY) :=
  c9_mulGrid_covers 2 3 4 2 2 (by decide) (by decide) (by decide) (by decide)
    (by decide) (by decide) (by decide)

/-! ## Host-side event traces -/

/-- One observable device-buffer event of a host program.  Buffer roles: 0 = operand a,
1 = operand b, 2 = result c. -/
inductive Event : Type
  | devAlloc (role bytes : Nat)
  | hUpload (role bytes : Nat)
  | kLaunch
  | dDownload (role bytes : Nat)
  | devFree (role : Nat)
  | errExit
  | verdict (ok : Bool)
  deriving DecidableEq

/-- Modelled from the spec: the HANDLE_ERROR wrapper of common/error.h (not under
src/) translates a failing device call into immediate termination of the operation
(spec section 7: device-resource errors are fatal to the current operation); the
source contains no release code on that path.  `runCalls` replays a straight-line list
of host steps, where steps flagged `true` are fallible device calls; `failAt = some n`
makes the n-th fallible call fail, replacing it by an error exit and dropping the
unreachable remainder of the program. -/
def runCalls : List (Bool × Event) → Option Nat → List Event
  | [], _ => []
  | (false, e) :: es, f => e :: runCalls es f
  | (true, e) :: es, none => e :: runCalls es none
  | (true, _) :: _, some 0 => [Event.errExit]
  | (true, e) :: es, some (n + 1) => e :: runCalls es (some n)

/-- With no injected failure the replay is exactly the programmed step list. -/
lemma runCalls_none (l : List (Bool × Event)) : runCalls l none = l.map Prod.snd := by
  induction l with
  | nil => rfl
  | cons p es ih =>
      obtain ⟨flag, e⟩ := p
      cases flag <;> simp [runCalls, ih]

/-- Every event of a replay is a programmed step or the error exit. -/
lemma mem_runCalls {e : Event} : ∀ (l : List (Bool × Event)) (f : Option Nat),
    e ∈ runCalls l f → e ∈ l.map Prod.snd ∨ e = Event.errExit := by
  intro l
  induction l with
  | nil =>
      intro f h
      simp [runCalls] at h
  | cons p es ih =>
      obtain ⟨flag, e'⟩ := p
      have step : ∀ f', e ∈ e' :: runCalls es f' →
          e ∈ ((flag, e') :: es).map Prod.snd ∨ e = Event.errExit := by
        intro f' h
        rcases List.mem_cons.mp h with h | h
        · exact Or.inl (by simp [h])
        · rcases ih f' h with h' | h'
          · exact Or.inl (by simp [h'])
          · exact Or.inr h'
      intro f h
      cases flag with
      | false => exact step f h
      | true =>
          cases f with
          | none => exact step none h
          | some n =>
              cases n with
              | zero => exact Or.inr (List.mem_singleton.mp h)
              | succ m => exact step (some m) h

/-- Modelled from the spec: the IS_POWER_OF_2 macro of common/mathutil.h (not under
src/), used with the error message "blockSize expected as power of 2" by
add_vector.cu line 117 and matrix_mul_nxm_int.cu line 113: nonzero and no two bits
set. -/
def IS_POWER_OF_2 (x : Nat) : Bool := x != 0 && (x &&& (x - 1)) == 0

/-- Device-call sequence of gpuVectorAdd (src/add_vector.cu lines 70-93): allocate
a, b, c of `size` bytes each, upload a and b (asynchronously, on the same default
stream as the kernel, hence stream-ordered before it), launch, synchronously download
c, free all three.  The kernel launch itself carries no error check. -/
def gpuVectorAdd (size : Nat) : List (Bool × Event) :=
  [(true, Event.devAlloc 0 size), (true, Event.devAlloc 1 size),
   (true, Event.devAlloc 2 size),
   (true, Event.hUpload 0 size), (true, Event.hUpload 1 size),
   (false, Event.kLaunch),
   (true, Event.dDownload 2 size),
   (true, Event.devFree 0), (true, Event.devFree 1), (true, Event.devFree 2)]

/-- Device-call sequence of gpuMatrixAdd (src/unnamed/part_000 lines 43-66): same
shape as gpuVectorAdd with synchronous uploads. -/
def gpuMatrixAdd (size : Nat) : List (Bool × Event) :=
  [(true, Event.devAlloc 0 size), (true, Event.devAlloc 1 size),
   (true, Event.devAlloc 2 size),
   (true, Event.hUpload 0 size), (true, Event.hUpload 1 size),
   (false, Event.kLaunch),
   (true, Event.dDownload 2 size),
   (true, Event.devFree 0), (true, Event.devFree 1), (true, Event.devFree 2)]

/-- Device-call sequence of gpuMatrixMul (matrix_mul_nxm_int.cu lines 44-71):
per-role byte sizes `sa`, `sb`, `sc`. -/
def gpuMatrixMul (sa sb sc : Nat) : List (Bool × Event) :=
  [(true, Event.devAlloc 0 sa), (true, Event.devAlloc 1 sb),
   (true, Event.devAlloc 2 sc),
   (true, Event.hUpload 0 sa), (true, Event.hUpload 1 sb),
   (false, Event.kLaunch),
   (true, Event.dDownload 2 sc),
   (true, Event.devFree 0), (true, Event.devFree 1), (true, Event.devFree 2)]

/-- Host main of src/add_vector.cu lines 95-188 after argument parsing: validate
vectorDim >= 1, then blockSize a power of two, then run gpuVectorAdd on
size = vectorDim * sizeof(REAL) reduced modulo 2^32, and report the verification
verdict.  Host-memory events and the device-property query are omitted; `ok`
abstracts the data-dependent verification outcome; eltSize is sizeof(REAL)
(4 for float, 8 for double). -/
def vectorMainTrace (vectorDim blockSize eltSize : Nat) (failAt : Option Nat)
    (ok : Bool) : List Event :=
  if vectorDim < 1 then [Event.errExit]
  else if !IS_POWER_OF_2 blockSize then [Event.errExit]
  else runCalls (gpuVectorAdd ((vectorDim * eltSize) % W32)
    ++ [(false, Event.verdict ok)]) failAt

/-- Host main of matrix_mul_nxm_int.cu lines 73-181 after argument parsing: validate
dimX1, dimY1, dimX2 >= 1, then dimY2 = dimX1, then blockSize a power of two, then run
gpuMatrixMul with the three 32-bit byte sizes dimX1*dimY1*4, dimX2*dimY2*4,
dimY1*dimX2*4 and report the verdict. -/
def matrixMulMainTrace (dimX1 dimY1 dimX2 dimY2 blockSize : Nat) (failAt : Option Nat)
    (ok : Bool) : List Event :=
  if dimX1 < 1 then [Event.errExit]
  else if dimY1 < 1 then [Event.errExit]
  else if dimX2 < 1 then [Event.errExit]
  else if dimY2 ≠ dimX1 then [Event.errExit]
  else if !IS_POWER_OF_2 blockSize then [Event.errExit]
  else runCalls (gpuMatrixMul ((dimX1 * dimY1 * 4) % W32) ((dimX2 * dimY2 * 4) % W32)
    ((dimY1 * dimX2 * 4) % W32) ++ [(false, Event.verdict ok)]) failAt

/-- Host main of src/unnamed/part_000 lines 68-174 after argument parsing: validate
dimX, dimY, blockSize >= 1, then run gpuMatrixAdd on size = dimX*dimY*sizeof(REAL)
reduced modulo 2^32 and report the verdict. -/
def matrixAdd0MainTrace (dimX dimY blockSize eltSize : Nat) (failAt : Option Nat)
    (ok : Bool) : List Event :=
  if dimX < 1 then [Event.errExit]
  else if dimY < 1 then [Event.errExit]
  else if blockSize < 1 then [Event.errExit]
  else runCalls (gpuMatrixAdd ((dimX * dimY * eltSize) % W32)
    ++ [(false, Event.verdict ok)]) failAt

/-- Host main of src/unnamed/part_001 lines 41-164 after argument parsing: validate
dimX, dimY, blockSize >= 1; then (host allocations omitted) allocate the three device
buffers, upload a and b, launch, download c, report the verdict, and only then free
the device buffers. -/
def matrixAdd1MainTrace (dimX dimY blockSize eltSize : Nat) (failAt : Option Nat)
    (ok : Bool) : List Event :=
  if dimX < 1 then [Event.errExit]
  else if dimY < 1 then [Event.errExit]
  else if blockSize < 1 then [Event.errExit]
  else
    runCalls
      [(true, Event.devAlloc 0 ((dimX * dimY * eltSize) % W32)),
       (true, Event.devAlloc 1 ((dimX * dimY * eltSize) % W32)),
       (true, Event.devAlloc 2 ((dimX * dimY * eltSize) % W32)),
       (true, Event.hUpload 0 ((dimX * dimY * eltSize) % W32)),
       (true, Event.hUpload 1 ((dimX * dimY * eltSize) % W32)),
       (false, Event.kLaunch),
       (true, Event.dDownload 2 ((dimX * dimY * eltSize) % W32)),
       (false, Event.verdict ok),
       (true, Event.devFree 0), (true, Event.devFree 1), (true, Event.devFree 2)]
      failAt

/-- Host main of src/src/basic/addvec_threads.cu: fixed N = 512 ints (2048 bytes
each buffer), no argument validation; allocate the device buffers, upload a and b,
launch one block of N units, download c, free the device buffers.  The element-wise
host comparison only prints, so no verdict event is emitted. -/
def addvecThreadsTrace (failAt : Option Nat) : List Event :=
  runCalls
    [(true, Event.devAlloc 0 (addvecN * 4)), (true, Event.devAlloc 1 (addvecN * 4)),
     (true, Event.devAlloc 2 (addvecN * 4)),
     (true, Event.hUpload 0 (addvecN * 4)), (true, Event.hUpload 1 (addvecN * 4)),
     (false, Event.kLaunch),
     (true, Event.dDownload 2 (addvecN * 4)),
     (true, Event.devFree 0), (true, Event.devFree 1), (true, Event.devFree 2)]
    failAt

/-- Number of device-buffer allocations in a trace. -/
def devAllocCount (t : List Event) : Nat :=
  t.countP fun e => match e with | Event.devAlloc _ _ => true | _ => false

/-- Number of device-buffer releases in a trace. -/
def devFreeCount (t : List Event) : Nat :=
  t.countP fun e => match e with | Event.devFree _ => true | _ => false

/-- Whether a trace contains a device-buffer allocation. -/
def hasDevAlloc (t : List Event) : Bool :=
  t.any fun e => match e with | Event.devAlloc _ _ => true | _ => false

/-- Scan checking the upload/dispatch/download ordering contract: an upload may only
happen before the launch, the launch requires both operand uploads to have completed,
and a download may only happen after the launch.  `u` counts uploads seen so far, `l`
records whether the launch has happened. -/
def orderScan : List Event → Nat → Bool → Bool
  | [], _, _ => true
  | Event.hUpload _ _ :: es, u, l => !l && orderScan es (u + 1) l
  | Event.kLaunch :: es, u, _ => (u == 2) && orderScan es u true
  | Event.dDownload _ _ :: es, u, l => l && orderScan es u l
  | _ :: es, u, l => orderScan es u l

/-- A trace satisfies the upload/dispatch/download ordering contract. -/
def orderOK (t : List Event) : Bool := orderScan t 0 false

/-- Prepending the same event preserves scan success, for scans related pointwise. -/
lemma orderScan_mono (e : Event) (es1 es2 : List Event)
    (h : ∀ u s, orderScan es1 u s = true → orderScan es2 u s = true) :
    ∀ u s, orderScan (e :: es1) u s = true → orderScan (e :: es2) u s = true := by
  intro u s hs
  cases e <;> simp only [orderScan, Bool.and_eq_true] at hs ⊢ <;>
    first
      | exact h _ _ hs
      | exact ⟨hs.1, h _ _ hs.2⟩

/-- Injected failures only truncate a scan-successful step list, preserving success. -/
lemma orderScan_runCalls : ∀ (l : List (Bool × Event)) (f : Option Nat) (u : Nat) (s : Bool),
    orderScan (l.map Prod.snd) u s = true → orderScan (runCalls l f) u s = true := by
  intro l
  induction l with
  | nil =>
      intro f u s h
      cases f <;> exact h
  | cons p es ih =>
      obtain ⟨flag, e⟩ := p
      intro f u s h
      rw [List.map_cons] at h
      cases flag with
      | false => exact orderScan_mono e _ _ (fun u' s' => ih f u' s') u s h
      | true =>
          cases f with
          | none => exact orderScan_mono e _ _ (fun u' s' => ih none u' s') u s h
          | some n =>
              cases n with
              | zero => rfl
              | succ m => exact orderScan_mono e _ _ (fun u' s' => ih (some m) u' s') u s h

/-! ## Reference verifier -/

/-- EPSILON of src/add_vector.cu line 60 and src/unnamed/part_000 line 31: the
caller-supplied floating-point tolerance 1e-5, modelled as a rational. -/
def EPSILON : ℚ := 1 / 100000

/-- Modelled from the spec: vector_equals_err_float of common/vector.h (not under
src/), the element-wise comparison with tolerance: element i passes when the absolute
difference is at most eps (spec section 4.4). -/
def vector_equals_err (c e : Nat → ℚ) (dim : Nat) (eps : ℚ) : Bool :=
  (List.range dim).all fun i => decide (|c i - e i| ≤ eps)

/-- Modelled from the spec: matrix_equals_err_float of common/matrix.h (not under
src/), the row-major element-wise comparison with tolerance. -/
def matrix_equals_err (c e : Nat → ℚ) (dimX dimY : Nat) (eps : ℚ) : Bool :=
  (List.range (dimX * dimY)).all fun i => decide (|c i - e i| ≤ eps)

/-- Modelled from the spec: matrix_equals_float of common/matrix.h (not under src/),
the exact row-major element-wise comparison; it takes no tolerance parameter. -/
def matrix_equals (c e : Nat → ℚ) (dimX dimY : Nat) : Bool :=
  (List.range (dimX * dimY)).all fun i => decide (c i = e i)

/-- Verification call of src/add_vector.cu line 173: vector_equals_err_float with
EPSILON. -/
def addVectorFloatVerify (c e : Nat → ℚ) (dim : Nat) : Bool :=
  vector_equals_err c e dim EPSILON

/-- Verification call of src/unnamed/part_000 line 159: matrix_equals_err_float with
EPSILON. -/
def matrixAdd0FloatVerify (c e : Nat → ℚ) (dimX dimY : Nat) : Bool :=
  matrix_equals_err c e dimX dimY EPSILON

/-- Verification call of src/unnamed/part_001 line 144 (float build):
matrix_equals_float, the exact comparison. -/
def matrixAdd1FloatVerify (c e : Nat → ℚ) (dimX dimY : Nat) : Bool :=
  matrix_equals c e dimX dimY

/-! ## Claim C4 -/

/-- Claim C4 (confirmed): whenever an argument is invalid -- a dimension extent < 1,
or matrix-multiply dimensions with dimY2 != dimX1 -- the program exits with a
validation error immediately: the trace is exactly the error exit, with no device
buffer allocation, regardless of fault injection and verification outcome. -/
theorem c4_validation_before_alloc (dimX1 dimY1 dimX2 dimY2 dim dX dY bs elt : Nat)
    (failAt : Option Nat) (ok : Bool) :
    (dimX1 < 1 ∨ dimY1 < 1 ∨ dimX2 < 1 ∨ dimY2 ≠ dimX1 →
      matrixMulMainTrace dimX1 dimY1 dimX2 dimY2 bs failAt ok = [Event.errExit]
      ∧ hasDevAlloc (matrixMulMainTrace dimX1 dimY1 dimX2 dimY2 bs failAt ok) = false)
    ∧ (dim < 1 →
      vectorMainTrace dim bs elt failAt ok = [Event.errExit]
      ∧ hasDevAlloc (vectorMainTrace dim bs elt failAt ok) = false)
    ∧ (dX < 1 ∨ dY < 1 →
      matrixAdd0MainTrace dX dY bs elt failAt ok = [Event.errExit]
      ∧ hasDevAlloc (matrixAdd0MainTrace dX dY bs elt failAt ok) = false)
    ∧ (dX < 1 ∨ dY < 1 →
      matrixAdd1MainTrace dX dY bs elt failAt ok = [Event.errExit]
      ∧ hasDevAlloc (matrixAdd1MainTrace dX dY bs elt failAt ok) = false) := by
  refine ⟨?_, ?_, ?_, ?_⟩ <;> intro h
  · simp only [matrixMulMainTrace]
    split_ifs <;> first | exact ⟨rfl, rfl⟩ | omega
  · simp only [vectorMainTrace]
    split_ifs <;> first | exact ⟨rfl, rfl⟩ | omega
  · simp only [matrixAdd0MainTrace]
    split_ifs <;> first | exact ⟨rfl, rfl⟩ | omega
  · simp only [matrixAdd1MainTrace]
    split_ifs <;> first | exact ⟨rfl, rfl⟩ | omega

/-- Witness for C4: dimY2 = 3 with dimX1 = 2 for the multiply, extent 0 elsewhere. -/
theorem c4_validation_before_alloc_witness :
    (matrixMulMainTrace 2 2 2 3 4 none true = [Event.errExit]
      ∧ hasDevAlloc (matrixMulMainTrace 2 2 2 3 4 none true) = false)
    ∧ (vectorMainTrace 0 4 4 none true = [Event.errExit]
      ∧ hasDevAlloc (vectorMainTrace 0 4 4 none true) = false)
    ∧ (matrixAdd0MainTrace 0 5 4 4 none true = [Event.errExit]
      ∧ hasDevAlloc (matrixAdd0MainTrace 0 5 4 4 none true) = false)
    ∧ (matrixAdd1MainTrace 0 5 4 4 none true = [Event.errExit]
      ∧ hasDevAlloc (matrixAdd1MainTrace 0 5 4 4 none true) = false) :=
  ⟨(c4_validation_before_alloc 2 2 2 3 0 0 5 4 4 none true).1 (by omega),
   (c4_validation_before_alloc 2 2 2 3 0 0 5 4 4 none true).2.1 (by omega),
   (c4_validation_before_alloc 2 2 2 3 0 0 5 4 4 none true).2.2.1 (by omega),
   (c4_validation_before_alloc 2 2 2 3 0 0 5 4 4 none true).2.2.2 (by omega)⟩

/-! ## Claim C5 -/

/-- Claim C5 counterexample: the vector-add program of add_vector.cu is an
elementwise-add operation, yet it rejects the positive group size 3 (not a power of
two): no launch occurs and the program exits with an error, while the matrix-add
program of part_000 accepts the same group size. -/
theorem c5_counterexample :
    (1 : Nat) ≤ 3 ∧ IS_POWER_OF_2 3 = false
    ∧ vectorMainTrace 8 3 4 none true = [Event.errExit]
    ∧ Event.kLaunch ∉ vectorMainTrace 8 3 4 none true
    ∧ Event.kLaunch ∈ matrixAdd0MainTrace 8 8 3 4 none true := by
  decide

/-- Claim C5 (corrected): the group-size precondition is power-of-two both for the
matrix-multiply program and for the float vector-add program, while the two
matrix-add programs accept any positive group size: with valid dimensions and no
device fault, the dispatch is reached exactly under these per-program conditions. -/
theorem c5_amended (dimX1 dimY1 dimX2 dimY2 dim dX dY bs elt : Nat) (ok : Bool)
    (h1 : 1 ≤ dimX1) (h2 : 1 ≤ dimY1) (h3 : 1 ≤ dimX2) (h4 : dimY2 = dimX1)
    (h5 : 1 ≤ dim) (h6 : 1 ≤ dX) (h7 : 1 ≤ dY) :
    (Event.kLaunch ∈ matrixMulMainTrace dimX1 dimY1 dimX2 dimY2 bs none ok
      ↔ IS_POWER_OF_2 bs = true)
    ∧ (Event.kLaunch ∈ vectorMainTrace dim bs elt none ok ↔ IS_POWER_OF_2 bs = true)
    ∧ (Event.kLaunch ∈ matrixAdd0MainTrace dX dY bs elt none ok ↔ 1 ≤ bs)
    ∧ (Event.kLaunch ∈ matrixAdd1MainTrace dX dY bs elt none ok ↔ 1 ≤ bs) := by
  refine ⟨?_, ?_, ?_, ?_⟩
  · simp only [matrixMulMainTrace, if_neg (show ¬ dimX1 < 1 by omega),
      if_neg (show ¬ dimY1 < 1 by omega), if_neg (show ¬ dimX2 < 1 by omega),
      if_neg (show ¬ dimY2 ≠ dimX1 by omega)]
    cases hp : IS_POWER_OF_2 bs <;>
      simp [hp, runCalls_none, gpuMatrixMul]
  · simp only [vectorMainTrace, if_neg (show ¬ dim < 1 by omega)]
    cases hp : IS_POWER_OF_2 bs <;>
      simp [hp, runCalls_none, gpuVectorAdd]
  · simp only [matrixAdd0MainTrace, if_neg (show ¬ dX < 1 by omega),
      if_neg (show ¬ dY < 1 by omega)]
    by_cases hbs : bs < 1
    · rw [if_pos hbs]
      simp
      omega
    · rw [if_neg hbs]
      simp [runCalls_none, gpuMatrixAdd]
      omega
  · simp only [matrixAdd1MainTrace, if_neg (show ¬ dX < 1 by omega),
      if_neg (show ¬ dY < 1 by omega)]
    by_cases hbs : bs < 1
    · rw [if_pos hbs]
      simp
      omega
    · rw [if_neg hbs]
      simp [runCalls_none]
      omega

/-- Witness for C5 (amended) at block size 2 and valid dimensions. -/
theorem c5_amended_witness :
    (Event.kLaunch ∈ matrixMulMainTrace 2 2 2 2 2 none true ↔ IS_POWER_OF_2 2 = true)
    ∧ (Event.kLaunch ∈ vectorMainTrace 8 2 4 none true ↔ IS_POWER_OF_2 2 = true)
    ∧ (Event.kLaunch ∈ matrixAdd0MainTrace 8 8 2 4 none true ↔ 1 ≤ 2)
    ∧ (Event.kLaunch ∈ matrixAdd1MainTrace 8 8 2 4 none true ↔ 1 ≤ 2) :=
  c5_amended 2 2 2 2 8 8 8 2 4 true (by decide) (by decide) (by decide) (by decide)
    (by decide) (by decide) (by decide)

/-! ## Claim C6 -/

/-- Claim C6 counterexample: the float build of part_001 verifies with the exact
comparison matrix_equals_float; a computed value differing from the expected one by
5e-6, well within the 1e-5 tolerance, is rejected. -/
theorem c6_counterexample :
    matrixAdd1FloatVerify (fun _ => 0) (fun _ => 1 / 200000) 1 1 = false
    ∧ |(0 : ℚ) - 1 / 200000| ≤ EPSILON := by
  constructor
  · simp only [matrixAdd1FloatVerify, matrix_equals, Nat.mul_one,
      show List.range 1 = [0] from rfl,
      List.all_cons, List.all_nil, Bool.and_true, decide_eq_false_iff_not]
    norm_num
  · rw [zero_sub, abs_neg, abs_of_nonneg (by norm_num : (0 : ℚ) ≤ 1 / 200000), EPSILON]
    norm_num

/-- Claim C6 (corrected): the float vector-add program (add_vector.cu) and the
matrix-add program of part_000 verify element i by the caller-supplied tolerance
EPSILON = 1e-5, accepting exactly when every in-range absolute difference is at most
the tolerance; but the float matrix-add variant of part_001 verifies by exact
equality, with no tolerance. -/
theorem c6_amended :
    (∀ (c e : Nat → ℚ) (dim : Nat),
      addVectorFloatVerify c e dim = true ↔ ∀ i, i < dim → |c i - e i| ≤ EPSILON)
    ∧ (∀ (c e : Nat → ℚ) (dX dY : Nat),
      matrixAdd0FloatVerify c e dX dY = true ↔ ∀ i, i < dX * dY → |c i - e i| ≤ EPSILON)
    ∧ (∀ (c e : Nat → ℚ) (dX dY : Nat),
      matrixAdd1FloatVerify c e dX dY = true ↔ ∀ i, i < dX * dY → c i = e i) := by
  refine ⟨?_, ?_, ?_⟩ <;> intros <;>
    simp [addVectorFloatVerify, vector_equals_err, matrixAdd0FloatVerify,
      matrix_equals_err, matrixAdd1FloatVerify, matrix_equals, List.all_eq_true,
      List.mem_range]

/-- Witness for C6 (amended): the tolerance-based verifier accepts equal vectors. -/
theorem c6_amended_witness :
    addVectorFloatVerify (fun _ => 0) (fun _ => 0) 3 = true :=
  (c6_amended.1 (fun _ => 0) (fun _ => 0) 3).mpr
    (fun _ _ => by rw [sub_zero, abs_zero, EPSILON]; norm_num)

/-! ## Claim C7 -/

/-- Claim C7 counterexample: when the second device allocation of the
matrix-multiply run fails, the program exits through the fatal-error path with one
device buffer allocated and none freed: the outstanding count does not return to
zero. -/
theorem c7_counterexample :
    devAllocCount (matrixMulMainTrace 2 2 2 2 2 (some 1) true) = 1
    ∧ devFreeCount (matrixMulMainTrace 2 2 2 2 2 (some 1) true) = 0
    ∧ Event.errExit ∈ matrixMulMainTrace 2 2 2 2 2 (some 1) true := by
  decide

/-- Claim C7 (corrected): on every run in which no device call fails -- including
runs whose verification fails (either verdict) -- every program frees exactly as many
device buffers as it allocates, so the outstanding count returns to zero; but a
fatal device error terminates the program at once, leaving the buffers acquired so
far unreleased. -/
theorem c7_amended (dimX1 dimY1 dimX2 dimY2 dim dX dY bs elt : Nat) (ok : Bool)
    (h1 : 1 ≤ dimX1) (h2 : 1 ≤ dimY1) (h3 : 1 ≤ dimX2) (h4 : dimY2 = dimX1)
    (h5 : 1 ≤ dim) (h6 : 1 ≤ dX) (h7 : 1 ≤ dY)
    (hp : IS_POWER_OF_2 bs = true) (hb : 1 ≤ bs) :
    devAllocCount (matrixMulMainTrace dimX1 dimY1 dimX2 dimY2 bs none ok)
      = devFreeCount (matrixMulMainTrace dimX1 dimY1 dimX2 dimY2 bs none ok)
    ∧ devAllocCount (vectorMainTrace dim bs elt none ok)
      = devFreeCount (vectorMainTrace dim bs elt none ok)
    ∧ devAllocCount (matrixAdd0MainTrace dX dY bs elt none ok)
      = devFreeCount (matrixAdd0MainTrace dX dY bs elt none ok)
    ∧ devAllocCount (matrixAdd1MainTrace dX dY bs elt none ok)
      = devFreeCount (matrixAdd1MainTrace dX dY bs elt none ok)
    ∧ devAllocCount (addvecThreadsTrace none) = devFreeCount (addvecThreadsTrace none) := by
  have e1 : matrixMulMainTrace dimX1 dimY1 dimX2 dimY2 bs none ok
      = (gpuMatrixMul ((dimX1 * dimY1 * 4) % W32) ((dimX2 * dimY2 * 4) % W32)
          ((dimY1 * dimX2 * 4) % W32)
        ++ [(false, Event.verdict ok)]).map Prod.snd := by
    simp only [matrixMulMainTrace, if_neg (show ¬ dimX1 < 1 by omega),
      if_neg (show ¬ dimY1 < 1 by omega), if_neg (show ¬ dimX2 < 1 by omega),
      if_neg (show ¬ dimY2 ≠ dimX1 by omega), hp]
    simp [runCalls_none]
  have e2 : vectorMainTrace dim bs elt none ok
      = (gpuVectorAdd ((dim * elt) % W32) ++ [(false, Event.verdict ok)]).map Prod.snd := by
    simp only [vectorMainTrace, if_neg (show ¬ dim < 1 by omega), hp]
    simp [runCalls_none]
  have e3 : matrixAdd0MainTrace dX dY bs elt none ok
      = (gpuMatrixAdd ((dX * dY * elt) % W32) ++ [(false, Event.verdict ok)]).map Prod.snd := by
    simp only [matrixAdd0MainTrace, if_neg (show ¬ dX < 1 by omega),
      if_neg (show ¬ dY < 1 by omega), if_neg (show ¬ bs < 1 by omega)]
    simp [runCalls_none]
  refine ⟨?_, ?_, ?_, ?_, ?_⟩
  · rw [e1]; rfl
  · rw [e2]; rfl
  · rw [e3]; rfl
  · simp only [matrixAdd1MainTrace, if_neg (show ¬ dX < 1 by omega),
      if_neg (show ¬ dY < 1 by omega), if_neg (show ¬ bs < 1 by omega)]
    rw [runCalls_none]
    rfl
  · rfl

/-- Witness for C7 (amended) at valid dimensions and block size 2, verdict false
(verification failure). -/
theorem c7_amended_witness :
    devAllocCount (matrixMulMainTrace 2 2 2 2 2 none false)
      = devFreeCount (matrixMulMainTrace 2 2 2 2 2 none false)
    ∧ devAllocCount (vectorMainTrace 8 2 4 none false)
      = devFreeCount (vectorMainTrace 8 2 4 none false)
    ∧ devAllocCount (matrixAdd0MainTrace 8 8 2 4 none false)
      = devFreeCount (matrixAdd0MainTrace 8 8 2 4 none false)
    ∧ devAllocCount (matrixAdd1MainTrace 8 8 2 4 none false)
      = devFreeCount (matrixAdd1MainTrace 8 8 2 4 none false)
    ∧ devAllocCount (addvecThreadsTrace none) = devFreeCount (addvecThreadsTrace none) :=
  c7_amended 2 2 2 2 8 8 8 2 4 false (by decide) (by decide) (by decide) (by decide)
    (by decide) (by decide) (by decide) (by decide) (by decide)

/-! ## Claim C8 -/

/-- Claim C8 (confirmed): in every program, for every fault injection and verdict,
the host-side trace satisfies the ordering contract: both operand uploads complete
before the dispatch begins, and every download of the output happens only after the
dispatch.  (In add_vector.cu the uploads are asynchronous but issued on the same
default stream as the kernel, so they are stream-ordered before it, and the
synchronous download returns only after the kernel completes.) -/
theorem c8_ordering (dimX1 dimY1 dimX2 dimY2 dim dX dY bs elt : Nat)
    (failAt : Option Nat) (ok : Bool) :
    orderOK (matrixMulMainTrace dimX1 dimY1 dimX2 dimY2 bs failAt ok) = true
    ∧ orderOK (vectorMainTrace dim bs elt failAt ok) = true
    ∧ orderOK (matrixAdd0MainTrace dX dY bs elt failAt ok) = true
    ∧ orderOK (matrixAdd1MainTrace dX dY bs elt failAt ok) = true
    ∧ orderOK (addvecThreadsTrace failAt) = true := by
  refine ⟨?_, ?_, ?_, ?_, ?_⟩
  · simp only [matrixMulMainTrace]
    split_ifs <;> first
      | rfl
      | exact orderScan_runCalls _ failAt 0 false (by rfl)
  · simp only [vectorMainTrace]
    split_ifs <;> first
      | rfl
      | exact orderScan_runCalls _ failAt 0 false (by rfl)
  · simp only [matrixAdd0MainTrace]
    split_ifs <;> first
      | rfl
      | exact orderScan_runCalls _ failAt 0 false (by rfl)
  · simp only [matrixAdd1MainTrace]
    split_ifs <;> first
      | rfl
      | exact orderScan_runCalls _ failAt 0 false (by rfl)
  · exact orderScan_runCalls _ failAt 0 false (by rfl)

/-! ## Claim C10 -/

/-- Claim C10 (confirmed): every device-buffer byte size is computed in 32-bit
unsigned arithmetic as extent times element size (for matrices,
extentX * extentY * element size), i.e. equals the mathematical product modulo 2^32,
on every event of every trace; and at vectorDim = 2^30 with 4-byte elements the true
byte size 2^32 silently wraps to 0, which is the size the allocation uses. -/
theorem c10_byte_sizes :
    (∀ dim bs elt f ok r b, Event.devAlloc r b ∈ vectorMainTrace dim bs elt f ok →
      b = (dim * elt) % W32)
    ∧ (∀ dimX1 dimY1 dimX2 dimY2 bs f ok b,
        (Event.devAlloc 0 b ∈ matrixMulMainTrace dimX1 dimY1 dimX2 dimY2 bs f ok →
          b = (dimX1 * dimY1 * 4) % W32)
        ∧ (Event.devAlloc 1 b ∈ matrixMulMainTrace dimX1 dimY1 dimX2 dimY2 bs f ok →
          b = (dimX2 * dimY2 * 4) % W32)
        ∧ (Event.devAlloc 2 b ∈ matrixMulMainTrace dimX1 dimY1 dimX2 dimY2 bs f ok →
          b = (dimY1 * dimX2 * 4) % W32))
    ∧ (∀ dX dY bs elt f ok r b,
        Event.devAlloc r b ∈ matrixAdd0MainTrace dX dY bs elt f ok →
          b = (dX * dY * elt) % W32)
    ∧ (∀ dX dY bs elt f ok r b,
        Event.devAlloc r b ∈ matrixAdd1MainTrace dX dY bs elt f ok →
          b = (dX * dY * elt) % W32)
    ∧ (Event.devAlloc 0 ((1073741824 * 4) % W32) ∈ vectorMainTrace 1073741824 4 4 none true
        ∧ (1073741824 * 4) % W32 = 0 ∧ (1073741824 * 4 : Nat) = W32) := by
  refine ⟨?_, ?_, ?_, ?_, by decide⟩
  · intro dim bs elt f ok r b h
    simp only [vectorMainTrace] at h
    split_ifs at h <;> [skip; skip; skip] <;> try simp at h
    rcases mem_runCalls _ f h with h' | h'
    · simp [gpuVectorAdd] at h'
      tauto
    · simp at h'
  · intro dimX1 dimY1 dimX2 dimY2 bs f ok b
    refine ⟨?_, ?_, ?_⟩ <;> intro h <;>
      simp only [matrixMulMainTrace] at h <;>
      split_ifs at h <;> try simp at h
    all_goals
      rcases mem_runCalls _ f h with h' | h'
    all_goals
      first
        | (simp [gpuMatrixMul] at h'; tauto)
        | simp at h'
  · intro dX dY bs elt f ok r b h
    simp only [matrixAdd0MainTrace] at h
    split_ifs at h <;> try simp at h
    rcases mem_runCalls _ f h with h' | h'
    · simp [gpuMatrixAdd] at h'
      tauto
    · simp at h'
  · intro dX dY bs elt f ok r b h
    simp only [matrixAdd1MainTrace] at h
    split_ifs at h <;> try simp at h
    rcases mem_runCalls _ f h with h' | h'
    · simp at h'
      tauto
    · simp at h'

/-- Witness for C10 at vectorDim 8, float elements: the allocation carries 32 bytes. -/
theorem c10_byte_sizes_witness :
    (32 : Nat) = (8 * 4) % W32 :=
  c10_byte_sizes.1 8 4 4 none true 0 32 (by decide)

end Cudawesome
